import Mathlib

/-!
Verification of the screen_bpm multi-screen projective geometry and
calibration engine against its natural-language specification.

The Python source is shallowly embedded over the real numbers (geometry,
trigonometry) and the rationals (pure data shuffling in the calibration
flatten/unflatten code and in the pixel-size validation).  Python dicts are
embedded as lists in insertion order; a `CalibrationMask` is assumed, as the
spec's invariant demands, to mirror the shape (and key order) of the
`Calibration` it masks.  Division by zero follows Lean's `x / 0 = 0`
convention; the affected claims are settled only at points where the source
itself is well defined, or the division by zero is itself the point.
-/

namespace ScreenBPM

noncomputable section

open Real

/-! ## Intrinsic Z-X-Y Euler rotations (scipy `Rotation.from_euler('ZXY', a)`)

`Rotation.from_euler('ZXY', (a, b, c))` builds the matrix
`R = Z(a) * X(b) * Y(c)` (intrinsic order), `apply v = R v`,
`apply (v, inverse=True) = R⁻¹ v = Y(-c) (X(-b) (Z(-a) v))`. -/

/-- Elementary rotation about the z axis applied to a 3-vector. -/
def rotZ (a : ℝ) (v : ℝ × ℝ × ℝ) : ℝ × ℝ × ℝ :=
  (Real.cos a * v.1 - Real.sin a * v.2.1,
   Real.sin a * v.1 + Real.cos a * v.2.1,
   v.2.2)

/-- Elementary rotation about the x axis applied to a 3-vector. -/
def rotX (a : ℝ) (v : ℝ × ℝ × ℝ) : ℝ × ℝ × ℝ :=
  (v.1,
   Real.cos a * v.2.1 - Real.sin a * v.2.2,
   Real.sin a * v.2.1 + Real.cos a * v.2.2)

/-- Elementary rotation about the y axis applied to a 3-vector. -/
def rotY (a : ℝ) (v : ℝ × ℝ × ℝ) : ℝ × ℝ × ℝ :=
  (Real.cos a * v.1 + Real.sin a * v.2.2,
   v.2.1,
   -Real.sin a * v.1 + Real.cos a * v.2.2)

/-- `scipy.Rotation.from_euler('ZXY', angles).apply(v)`. -/
def eulerApply (angles : ℝ × ℝ × ℝ) (v : ℝ × ℝ × ℝ) : ℝ × ℝ × ℝ :=
  rotZ angles.1 (rotX angles.2.1 (rotY angles.2.2 v))

/-- `scipy.Rotation.from_euler('ZXY', angles).apply(v, inverse=True)`. -/
def eulerApplyInv (angles : ℝ × ℝ × ℝ) (v : ℝ × ℝ × ℝ) : ℝ × ℝ × ℝ :=
  rotY (-angles.2.2) (rotX (-angles.2.1) (rotZ (-angles.1) v))

theorem rotZ_neg_rotZ (a : ℝ) (v : ℝ × ℝ × ℝ) : rotZ (-a) (rotZ a v) = v := by
  obtain ⟨x, y, z⟩ := v
  have h := Real.sin_sq_add_cos_sq a
  simp only [rotZ, Real.cos_neg, Real.sin_neg, Prod.mk.injEq]
  refine ⟨by linear_combination x * h, by linear_combination y * h, trivial⟩

theorem rotX_neg_rotX (a : ℝ) (v : ℝ × ℝ × ℝ) : rotX (-a) (rotX a v) = v := by
  obtain ⟨x, y, z⟩ := v
  have h := Real.sin_sq_add_cos_sq a
  simp only [rotX, Real.cos_neg, Real.sin_neg, Prod.mk.injEq]
  refine ⟨trivial, by linear_combination y * h, by linear_combination z * h⟩

theorem rotY_neg_rotY (a : ℝ) (v : ℝ × ℝ × ℝ) : rotY (-a) (rotY a v) = v := by
  obtain ⟨x, y, z⟩ := v
  have h := Real.sin_sq_add_cos_sq a
  simp only [rotY, Real.cos_neg, Real.sin_neg, Prod.mk.injEq]
  refine ⟨by linear_combination x * h, trivial, by linear_combination z * h⟩

/-- The ZXY Euler rotation is undone by its inverse rotation. -/
theorem eulerApplyInv_eulerApply (angles v : ℝ × ℝ × ℝ) :
    eulerApplyInv angles (eulerApply angles v) = v := by
  simp only [eulerApply, eulerApplyInv, rotZ_neg_rotZ, rotX_neg_rotX, rotY_neg_rotY]

/-! ## The parametric `Screen` (screen_bpm/lm_screen_analysis/screen.py)

`pixel_size` is stored here already resolved to its two scalars; the
resolution/validation logic of `Screen.__init__` is embedded separately
(for claim C8) as `screenPixelSizeInit` below. -/

/-- Parametric screen: `Screen.__init__` fields after construction. -/
structure Screen where
  position : ℝ × ℝ × ℝ
  euler_angles : ℝ × ℝ × ℝ
  pixel_size : ℝ × ℝ
  screen_center : ℝ × ℝ

/-- `Screen._uv_to_uv_prime`: subtract the screen center, then apply the
diagonal affine scaling `[[p0, 0], [0, p1]]`. -/
def Screen.uv_to_uv_prime (s : Screen) (uv : ℝ × ℝ) : ℝ × ℝ :=
  (s.pixel_size.1 * (uv.1 - s.screen_center.1),
   s.pixel_size.2 * (uv.2 - s.screen_center.2))

/-- `Screen._uv_prime_to_xyz`: embed as `(-v', -u', 0)`, rotate, translate. -/
def Screen.uv_prime_to_xyz (s : Screen) (uvp : ℝ × ℝ) : ℝ × ℝ × ℝ :=
  let xyzPrime : ℝ × ℝ × ℝ := (-uvp.2, -uvp.1, 0)
  let r := eulerApply s.euler_angles xyzPrime
  (r.1 + s.position.1, r.2.1 + s.position.2.1, r.2.2 + s.position.2.2)

/-- `Screen.uv_to_xyz`. -/
def Screen.uv_to_xyz (s : Screen) (uv : ℝ × ℝ) : ℝ × ℝ × ℝ :=
  s.uv_prime_to_xyz (s.uv_to_uv_prime uv)

/-- `Screen._xyz_to_uv_prime`: translate back, un-rotate, project to the
first two coordinates, negate and flip. -/
def Screen.xyz_to_uv_prime (s : Screen) (xyz : ℝ × ℝ × ℝ) : ℝ × ℝ :=
  let w := eulerApplyInv s.euler_angles
    (xyz.1 - s.position.1, xyz.2.1 - s.position.2.1, xyz.2.2 - s.position.2.2)
  (-w.2.1, -w.1)

/-- `Screen._uv_prime_to_uv`: apply the inverse affine scaling, then add the
screen center (numpy inverts the diagonal matrix exactly). -/
def Screen.uv_prime_to_uv (s : Screen) (uvp : ℝ × ℝ) : ℝ × ℝ :=
  (uvp.1 / s.pixel_size.1 + s.screen_center.1,
   uvp.2 / s.pixel_size.2 + s.screen_center.2)

/-- `Screen.xyz_to_uv`. -/
def Screen.xyz_to_uv (s : Screen) (xyz : ℝ × ℝ × ℝ) : ℝ × ℝ :=
  s.uv_prime_to_uv (s.xyz_to_uv_prime xyz)

/-- Cross product of 3-vectors represented as triples. -/
def cross3 (a b : ℝ × ℝ × ℝ) : ℝ × ℝ × ℝ :=
  (a.2.1 * b.2.2 - a.2.2 * b.2.1,
   a.2.2 * b.1 - a.1 * b.2.2,
   a.1 * b.2.1 - a.2.1 * b.1)

/-- Euclidean norm of a triple (`numpy.linalg.norm`). -/
def norm3 (v : ℝ × ℝ × ℝ) : ℝ :=
  Real.sqrt (v.1 ^ 2 + v.2.1 ^ 2 + v.2.2 ^ 2)

/-- Componentwise difference of triples. -/
def sub3 (a b : ℝ × ℝ × ℝ) : ℝ × ℝ × ℝ :=
  (a.1 - b.1, a.2.1 - b.2.1, a.2.2 - b.2.2)

/-- The unnormalized normal of `Screen.compute_normal`:
`-cross(uv_to_xyz(1,0) - position, uv_to_xyz(0,1) - position)`. -/
def Screen.normal_unnormalized (s : Screen) : ℝ × ℝ × ℝ :=
  let unit_u := sub3 (s.uv_to_xyz (1, 0)) s.position
  let unit_v := sub3 (s.uv_to_xyz (0, 1)) s.position
  let n := cross3 unit_u unit_v
  (-n.1, -n.2.1, -n.2.2)

/-- `Screen.compute_normal`: the unnormalized normal divided by its norm. -/
def Screen.compute_normal (s : Screen) : ℝ × ℝ × ℝ :=
  let n := s.normal_unnormalized
  (n.1 / norm3 n, n.2.1 / norm3 n, n.2.2 / norm3 n)

/-! ## `get_xy_shearing_homography` (camera_operations.py) -/

/-- `get_xy_shearing_homography`: `numpy.eye(4)` with `H[0,2] = sx` and
`H[1,2] = sy`. -/
def get_xy_shearing_homography (sx sy : ℝ) : Matrix (Fin 4) (Fin 4) ℝ :=
  Matrix.of fun i j =>
    if i = 0 ∧ j = 2 then sx
    else if i = 1 ∧ j = 2 then sy
    else (1 : Matrix (Fin 4) (Fin 4) ℝ) i j

/-! ## Ray operations (ray_operations.py) -/

/-- A ray as two nodes `[x1, y1, z1, x2, y2, z2]`. -/
structure Ray where
  x1 : ℝ
  y1 : ℝ
  z1 : ℝ
  x2 : ℝ
  y2 : ℝ
  z2 : ℝ

/-- `compute_xy_angles`: `arctan(delta_x / delta_z)` and
`arctan(delta_y / delta_z)`. -/
def compute_xy_angles (r : Ray) : ℝ × ℝ :=
  (Real.arctan ((r.x2 - r.x1) / (r.z2 - r.z1)),
   Real.arctan ((r.y2 - r.y1) / (r.z2 - r.z1)))

/-- `compute_beam_position`: intersection of the ray with the plane
`z = zBeam` by linear interpolation in z. -/
def compute_beam_position (r : Ray) (zBeam : ℝ) : ℝ × ℝ :=
  ((r.x2 - r.x1) * (zBeam - r.z1) / (r.z2 - r.z1) + r.x1,
   (r.y2 - r.y1) * (zBeam - r.z1) / (r.z2 - r.z1) + r.y1)

/-- Two-argument arctangent, modelled from the spec's `atan2(dx, dz)`
(the standard quadrant-aware arctangent). -/
def atan2 (y x : ℝ) : ℝ :=
  if 0 < x then Real.arctan (y / x)
  else if x < 0 then
    (if 0 ≤ y then Real.arctan (y / x) + Real.pi
     else Real.arctan (y / x) - Real.pi)
  else
    (if 0 < y then Real.pi / 2
     else if y < 0 then -(Real.pi / 2)
     else 0)

/-! ## `HomographyScreen` (homography_screen.py) -/

/-- Direct-homography screen: a z position and a 3x3 homography mapping
homogeneous pixel coordinates to homogeneous lab xy at that z. -/
structure HomographyScreen where
  z_position : ℝ
  homography : Matrix (Fin 3) (Fin 3) ℝ

/-- `HomographyScreen.uv_to_xyz`: lift `uv` to homogeneous coordinates,
apply the homography, dehomogenize, and append `z_position`. -/
def HomographyScreen.uv_to_xyz (h : HomographyScreen) (uv : ℝ × ℝ) :
    ℝ × ℝ × ℝ :=
  let w := h.homography.mulVec ![uv.1, uv.2, 1]
  (w 0 / w 2, w 1 / w 2, h.z_position)

/-- `HomographyScreen.xyz_to_uv`: drop z, lift xy to homogeneous
coordinates, apply the inverse homography (`numpy.linalg.inv`), and
dehomogenize. -/
def HomographyScreen.xyz_to_uv (h : HomographyScreen) (p : ℝ × ℝ × ℝ) :
    ℝ × ℝ :=
  let w := (h.homography)⁻¹.mulVec ![p.1, p.2.1, 1]
  (w 0 / w 2, w 1 / w 2)

end

end ScreenBPM

namespace ScreenBPM

/-! ### Claim C9 -/

/-- The shearing homography written out as an explicit matrix literal. -/
theorem xy_shearing_homography_eq (sx sy : ℝ) :
    get_xy_shearing_homography sx sy =
      !![1, 0, sx, 0; 0, 1, sy, 0; 0, 0, 1, 0; 0, 0, 0, 1] := by
  ext i j
  fin_cases i <;> fin_cases j <;>
    simp [get_xy_shearing_homography, Matrix.one_apply, Matrix.vecHead,
      Matrix.vecTail]

/-- Claim C9: for all real `sx`, `sy`, `get_xy_shearing_homography sx sy` is
the identity matrix except for entries `H[0,2] = sx` and `H[1,2] = sy`; as a
homogeneous map it fixes every point with `z = 0` and sends `(x, y, z)` to
`(x + sx*z, y + sy*z, z)`. -/
theorem xy_shearing_homography_spec (sx sy : ℝ) :
    (get_xy_shearing_homography sx sy 0 2 = sx ∧
     get_xy_shearing_homography sx sy 1 2 = sy ∧
     ∀ i j : Fin 4, ¬(i = 0 ∧ j = 2) → ¬(i = 1 ∧ j = 2) →
       get_xy_shearing_homography sx sy i j = (1 : Matrix (Fin 4) (Fin 4) ℝ) i j) ∧
    (∀ x y z : ℝ,
      (get_xy_shearing_homography sx sy).mulVec ![x, y, z, 1] =
        ![x + sx * z, y + sy * z, z, 1]) ∧
    (∀ x y : ℝ,
      (get_xy_shearing_homography sx sy).mulVec ![x, y, 0, 1] = ![x, y, 0, 1]) := by
  refine ⟨⟨?_, ?_, ?_⟩, ?_, ?_⟩
  · simp [get_xy_shearing_homography]
  · simp [get_xy_shearing_homography]
  · intro i j hi hj
    fin_cases i <;> fin_cases j <;> simp_all [get_xy_shearing_homography]
  · intro x y z
    rw [xy_shearing_homography_eq]
    funext i
    fin_cases i <;>
      simp [Matrix.mulVec, Matrix.dotProduct, Fin.sum_univ_four]
  · intro x y
    rw [xy_shearing_homography_eq]
    funext i
    fin_cases i <;>
      simp [Matrix.mulVec, Matrix.dotProduct, Fin.sum_univ_four]

/-- Witness for claim C9 at `sx = 2`, `sy = 3`, entry `(3,3)` and the point
`(5, 7, 11)`. -/
theorem xy_shearing_homography_spec_witness :
    get_xy_shearing_homography 2 3 3 3 = (1 : Matrix (Fin 4) (Fin 4) ℝ) 3 3 ∧
    (get_xy_shearing_homography 2 3).mulVec ![5, 7, 11, 1] =
      ![5 + 2 * 11, 7 + 3 * 11, 11, 1] := by
  constructor
  · exact (xy_shearing_homography_spec 2 3).1.2.2 3 3 (by decide) (by decide)
  · exact (xy_shearing_homography_spec 2 3).2.1 5 7 11

/-! ### Claim C3 -/

/-- Claim C3 counterexample: on the ray `(0,0,1) -> (0,0,0)` (negative
`delta_z`), `compute_xy_angles` returns `(0, 0)` (arctan of the ratio)
whereas the claim's `atan2(dx, dz) = atan2(0, -1) = pi`. -/
theorem compute_xy_angles_atan2_counterexample :
    compute_xy_angles ⟨0, 0, 1, 0, 0, 0⟩ ≠
      (atan2 ((0 : ℝ) - 0) ((0 : ℝ) - 1), atan2 ((0 : ℝ) - 0) ((0 : ℝ) - 1)) := by
  have hL : compute_xy_angles ⟨0, 0, 1, 0, 0, 0⟩ = (0, 0) := by
    simp [compute_xy_angles]
  have hR : atan2 ((0 : ℝ) - 0) ((0 : ℝ) - 1) = Real.pi := by
    rw [show ((0 : ℝ) - 0) = 0 by norm_num, show ((0 : ℝ) - 1) = -1 by norm_num,
      atan2]
    norm_num
  rw [hL, hR]
  intro h
  have h1 := congrArg Prod.fst h
  simp only [Prod.fst] at h1
  exact Real.pi_ne_zero h1.symm

/-- Claim C3 (amended): `compute_xy_angles` returns
`(arctan(dx/dz), arctan(dy/dz))`; for every ray with `z2 > z1` this equals
`(atan2(dx, dz), atan2(dy, dz))`.  (For negative `delta_z` the two differ,
see the counterexample.) -/
theorem compute_xy_angles_spec (r : Ray) (hz : r.z1 < r.z2) :
    compute_xy_angles r =
      (Real.arctan ((r.x2 - r.x1) / (r.z2 - r.z1)),
       Real.arctan ((r.y2 - r.y1) / (r.z2 - r.z1))) ∧
    compute_xy_angles r =
      (atan2 (r.x2 - r.x1) (r.z2 - r.z1), atan2 (r.y2 - r.y1) (r.z2 - r.z1)) := by
  have hdz : 0 < r.z2 - r.z1 := by linarith
  constructor
  · rfl
  · simp only [compute_xy_angles, atan2, if_pos hdz]

/-- Witness for claim C3 at the concrete ray `(0,0,0) -> (1,0,1)`. -/
theorem compute_xy_angles_spec_witness :
    (Ray.mk 0 0 0 1 0 1).z1 < (Ray.mk 0 0 0 1 0 1).z2 ∧
    compute_xy_angles (Ray.mk 0 0 0 1 0 1) =
      (atan2 ((1 : ℝ) - 0) ((1 : ℝ) - 0), atan2 ((0 : ℝ) - 0) ((1 : ℝ) - 0)) := by
  refine ⟨by norm_num, ?_⟩
  exact (compute_xy_angles_spec (Ray.mk 0 0 0 1 0 1) (by norm_num)).2

/-! ### Claim C2 -/

/-- Claim C2 counterexample: the homography that swaps the first and third
homogeneous coordinates is invertible, yet for `uv = (0, 5)` the third
homogeneous coordinate of `H (u, v, 1)` vanishes and the round trip does not
return `(0, 5)`. -/
theorem uv_roundtrip_counterexample :
    IsUnit (Matrix.det (!![0, 0, 1; 0, 1, 0; 1, 0, 0] : Matrix (Fin 3) (Fin 3) ℝ)) ∧
    (HomographyScreen.mk 0 !![0, 0, 1; 0, 1, 0; 1, 0, 0]).xyz_to_uv
      ((HomographyScreen.mk 0 !![0, 0, 1; 0, 1, 0; 1, 0, 0]).uv_to_xyz (0, 5)) ≠
      ((0 : ℝ), (5 : ℝ)) := by
  constructor
  · rw [show Matrix.det (!![0, 0, 1; 0, 1, 0; 1, 0, 0] : Matrix (Fin 3) (Fin 3) ℝ)
        = -1 by simp [Matrix.det_fin_three]]
    exact IsUnit.neg isUnit_one
  · have hinv : (!![0, 0, 1; 0, 1, 0; 1, 0, 0] : Matrix (Fin 3) (Fin 3) ℝ)⁻¹
        = !![0, 0, 1; 0, 1, 0; 1, 0, 0] := by
      apply Matrix.inv_eq_right_inv
      ext i j
      fin_cases i <;> fin_cases j <;>
        simp [Matrix.mul_apply, Fin.sum_univ_three, Matrix.vecHead,
          Matrix.vecTail, Matrix.one_apply]
    simp only [HomographyScreen.uv_to_xyz, HomographyScreen.xyz_to_uv, hinv]
    norm_num [Matrix.mulVec, Matrix.dotProduct, Fin.sum_univ_three]
    intro h
    have h5 := congrArg Prod.snd h
    norm_num at h5

/-- Claim C2 (amended): for every parametric `Screen` whose two pixel-size
scalars are nonzero, `xyz_to_uv (uv_to_xyz uv) = uv` for every `uv`; for
every `HomographyScreen` with invertible homography the same holds for every
`uv` whose homogeneous image under the homography has nonzero third
coordinate. -/
theorem uv_roundtrip_spec :
    (∀ (s : Screen) (uv : ℝ × ℝ), s.pixel_size.1 ≠ 0 → s.pixel_size.2 ≠ 0 →
      s.xyz_to_uv (s.uv_to_xyz uv) = uv) ∧
    (∀ (h : HomographyScreen) (uv : ℝ × ℝ), IsUnit h.homography.det →
      (h.homography.mulVec ![uv.1, uv.2, 1]) 2 ≠ 0 →
      h.xyz_to_uv (h.uv_to_xyz uv) = uv) := by
  constructor
  · rintro ⟨⟨px, py, pz⟩, ang, ⟨p1, p2⟩, ⟨c1, c2⟩⟩ ⟨u, v⟩ h1 h2
    simp only at h1 h2
    simp only [Screen.xyz_to_uv, Screen.uv_to_xyz, Screen.uv_to_uv_prime,
      Screen.uv_prime_to_xyz, Screen.xyz_to_uv_prime, Screen.uv_prime_to_uv,
      add_sub_cancel_right]
    rw [eulerApplyInv_eulerApply]
    simp only [neg_neg, Prod.mk.injEq]
    constructor
    · field_simp
    · field_simp
  · rintro ⟨z, H⟩ ⟨u, v⟩ hdet hw
    simp only [HomographyScreen.uv_to_xyz, HomographyScreen.xyz_to_uv] at hw ⊢
    set w := H.mulVec ![u, v, 1] with hwdef
    have hvec : ![w 0 / w 2, w 1 / w 2, 1] = (w 2)⁻¹ • w := by
      funext i
      fin_cases i <;>
        simp [Pi.smul_apply, smul_eq_mul, div_eq_inv_mul, inv_mul_cancel₀ hw]
    have hcollapse : H⁻¹.mulVec ((w 2)⁻¹ • w) = (w 2)⁻¹ • ![u, v, 1] := by
      rw [Matrix.mulVec_smul, hwdef, Matrix.mulVec_mulVec,
        Matrix.nonsing_inv_mul H hdet, Matrix.one_mulVec]
    rw [hvec, hcollapse]
    simp only [Pi.smul_apply, smul_eq_mul, Prod.mk.injEq, Matrix.cons_val_zero,
      Matrix.cons_val_one, Matrix.cons_val_two, Matrix.head_cons,
      Matrix.tail_cons]
    constructor
    · rw [mul_div_mul_left u 1 (inv_ne_zero hw), div_one]
    · rw [mul_div_mul_left v 1 (inv_ne_zero hw), div_one]

/-- Witness for claim C2: a parametric screen with pixel size `(2, 3)` at
`uv = (4, 7)`, and the identity homography at `uv = (4, 7)`. -/
theorem uv_roundtrip_spec_witness :
    (Screen.mk (1, 2, 3) (0, 0, 0) (2, 3) (5, 6)).xyz_to_uv
      ((Screen.mk (1, 2, 3) (0, 0, 0) (2, 3) (5, 6)).uv_to_xyz (4, 7)) = (4, 7) ∧
    (HomographyScreen.mk 0 (1 : Matrix (Fin 3) (Fin 3) ℝ)).xyz_to_uv
      ((HomographyScreen.mk 0 (1 : Matrix (Fin 3) (Fin 3) ℝ)).uv_to_xyz (4, 7)) =
      (4, 7) := by
  constructor
  · exact uv_roundtrip_spec.1 (Screen.mk (1, 2, 3) (0, 0, 0) (2, 3) (5, 6))
      (4, 7) (by norm_num) (by norm_num)
  · exact uv_roundtrip_spec.2 (HomographyScreen.mk 0 1) (4, 7)
      (by simp) (by simp [Matrix.one_mulVec])

/-! ### Claim C10 -/

theorem eulerApply_zero (v : ℝ × ℝ × ℝ) : eulerApply (0, 0, 0) v = v := by
  obtain ⟨x, y, z⟩ := v
  simp [eulerApply, rotZ, rotX, rotY]

/-- At zero Euler angles the unnormalized screen normal is
`(0, 0, p1*p2*(1 - c1 - c2))`. -/
theorem normal_unnormalized_zero_euler (px py pz p1 p2 c1 c2 : ℝ) :
    (Screen.mk (px, py, pz) (0, 0, 0) (p1, p2) (c1, c2)).normal_unnormalized =
      (0, 0, p1 * p2 * (1 - c1 - c2)) := by
  simp only [Screen.normal_unnormalized, Screen.uv_to_xyz, Screen.uv_to_uv_prime,
    Screen.uv_prime_to_xyz, eulerApply_zero, sub3, cross3, Prod.mk.injEq]
  refine ⟨by ring, by ring, by ring⟩

theorem norm3_of_z (w : ℝ) : norm3 (0, 0, w) = |w| := by
  rw [norm3, show (0 : ℝ) ^ 2 + 0 ^ 2 + w ^ 2 = w ^ 2 by ring]
  exact Real.sqrt_sq_eq_abs w

/-- Claim C10: for a screen with zero Euler angles and positive pixel sizes,
`compute_normal` is `(0,0,1)` when `screen_center` components sum below 1 and
`(0,0,-1)` when they sum above 1; at sum exactly 1 the cross product is the
zero vector and its norm is 0, so the normalization divides by zero. -/
theorem compute_normal_zero_euler (px py pz p1 p2 c1 c2 : ℝ)
    (hp1 : 0 < p1) (hp2 : 0 < p2) :
    (c1 + c2 < 1 →
      (Screen.mk (px, py, pz) (0, 0, 0) (p1, p2) (c1, c2)).compute_normal =
        (0, 0, 1)) ∧
    (1 < c1 + c2 →
      (Screen.mk (px, py, pz) (0, 0, 0) (p1, p2) (c1, c2)).compute_normal =
        (0, 0, -1)) ∧
    (c1 + c2 = 1 →
      (Screen.mk (px, py, pz) (0, 0, 0) (p1, p2) (c1, c2)).normal_unnormalized =
        (0, 0, 0) ∧
      norm3 (Screen.mk (px, py, pz) (0, 0, 0) (p1, p2) (c1, c2)).normal_unnormalized
        = 0) := by
  have hn := normal_unnormalized_zero_euler px py pz p1 p2 c1 c2
  have hpp : 0 < p1 * p2 := mul_pos hp1 hp2
  refine ⟨?_, ?_, ?_⟩
  · intro hc
    have hw : 0 < p1 * p2 * (1 - c1 - c2) := by
      apply mul_pos hpp
      linarith
    simp only [Screen.compute_normal, hn, norm3_of_z, abs_of_pos hw]
    rw [div_self (ne_of_gt hw)]
    simp
  · intro hc
    have hw : p1 * p2 * (1 - c1 - c2) < 0 := by
      have : 1 - c1 - c2 < 0 := by linarith
      exact mul_neg_of_pos_of_neg hpp this
    simp only [Screen.compute_normal, hn, norm3_of_z, abs_of_neg hw, div_neg,
      div_self (ne_of_lt hw), zero_div, neg_zero]
  · intro hc
    have hw : p1 * p2 * (1 - c1 - c2) = 0 := by
      rw [show 1 - c1 - c2 = 0 by linarith]
      ring
    rw [hn, hw]
    exact ⟨rfl, by rw [norm3_of_z, abs_zero]⟩

/-- Witness for claim C10 at pixel size `(1,1)` and screen centers `(0,0)`
(sum below 1), `(1,1)` (sum above 1) and `(1,0)` (sum exactly 1). -/
theorem compute_normal_zero_euler_witness :
    (Screen.mk (0, 0, 0) (0, 0, 0) (1, 1) (0, 0)).compute_normal = (0, 0, 1) ∧
    (Screen.mk (0, 0, 0) (0, 0, 0) (1, 1) (1, 1)).compute_normal = (0, 0, -1) ∧
    (Screen.mk (0, 0, 0) (0, 0, 0) (1, 1) (1, 0)).normal_unnormalized =
      (0, 0, 0) := by
  refine ⟨?_, ?_, ?_⟩
  · exact (compute_normal_zero_euler 0 0 0 1 1 0 0 (by norm_num)
      (by norm_num)).1 (by norm_num)
  · exact ((compute_normal_zero_euler 0 0 0 1 1 1 1 (by norm_num)
      (by norm_num)).2).1 (by norm_num)
  · exact (((compute_normal_zero_euler 0 0 0 1 1 1 0 (by norm_num)
      (by norm_num)).2).2 (by norm_num)).1

/-! ### Claim C4 -/

/-- Claim C4: the screen classes never read a runtime `xy_offset`.  At the
unit-test's own input (homography `diag(2, 1/2, 1)`, `z = 1/10`,
`uv = (0, 0)`, `xy_offset = (1, 0)`) the code returns the offset-free lab
coordinate `(0, 0, 1/10)`, which differs from the offset result
`(0 + 1, 0 + 0, 1/10)` that the claim (and the repository's own test suite)
prescribes. -/
theorem xy_offset_ignored :
    (HomographyScreen.mk (1 / 10) !![2, 0, 0; 0, 1 / 2, 0; 0, 0, 1]).uv_to_xyz
      (0, 0) = (0, 0, 1 / 10) ∧
    ((0 : ℝ), (0 : ℝ), (1 / 10 : ℝ)) ≠ ((0 : ℝ) + 1, (0 : ℝ) + 0, (1 / 10 : ℝ)) := by
  constructor
  · simp only [HomographyScreen.uv_to_xyz]
    norm_num [Matrix.mulVec, Matrix.dotProduct, Fin.sum_univ_three]
  · intro h
    have h1 := congrArg Prod.fst h
    norm_num at h1

/-! ## Calibration flatten/unflatten (calibration.py)

A `Calibration` is a dict of per-screen dicts of numeric vectors and a
`CalibrationMask` mirrors its shape with booleans.  Python 3.7 dicts iterate
in insertion order; per the data-model invariant the mask exactly mirrors
the calibration (same screens and fields in the same order), so both are
embedded positionally as nested lists in that shared order, and the scaler
table (a dict keyed by field name) as one list of rows aligned with each
screen's field order. -/

/-- A calibration: screens, then fields, then scalar entries (dict insertion
order). -/
abbrev Calibration := List (List (List ℚ))

/-- A calibration mask: the same nested shape with booleans. -/
abbrev CalibrationMask := List (List (List Bool))

/-- A scaler table: one row of scale factors per calibration field. -/
abbrev Scaler := List (List ℚ)

/-- The masked entries of one field vector, in order. -/
def maskedEntries {α : Type} (vals : List α) (mask : List Bool) : List α :=
  (vals.zip mask).filterMap fun vb => if vb.2 then some vb.1 else none

/-- `calibration_to_array`: append every masked scalar, iterating screens,
then fields, then entries. -/
def calibration_to_array (cal : Calibration) (mask : CalibrationMask) : List ℚ :=
  ((cal.zip mask).map fun cm =>
    (((cm.1.zip cm.2).map fun vm => maskedEntries vm.1 vm.2).flatten)).flatten

/-- Refill one field vector from the front of `arr` at the masked positions
(`array_to_calibration`, inner loop); returns the new vector and the
unconsumed rest of `arr`. -/
def fillField (arr : List ℚ) (vals : List ℚ) (mask : List Bool) :
    List ℚ × List ℚ :=
  match vals, mask with
  | [], _ => ([], arr)
  | v :: vs, [] =>
      let r := fillField arr vs []
      (v :: r.1, r.2)
  | v :: vs, b :: bs =>
      if b then
        let r := fillField arr.tail vs bs
        (arr.headI :: r.1, r.2)
      else
        let r := fillField arr vs bs
        (v :: r.1, r.2)

/-- Refill one screen's field dict (`array_to_calibration`, middle loop). -/
def fillScreen (arr : List ℚ) (fields : List (List ℚ))
    (mask : List (List Bool)) : List (List ℚ) × List ℚ :=
  match fields, mask with
  | [], _ => ([], arr)
  | f :: fs, [] =>
      let r := fillScreen arr fs []
      (f :: r.1, r.2)
  | f :: fs, m :: ms =>
      let r1 := fillField arr f m
      let r2 := fillScreen r1.2 fs ms
      (r1.1 :: r2.1, r2.2)

/-- Refill the whole calibration (`array_to_calibration`, outer loop). -/
def fillCalibration (arr : List ℚ) (cal : Calibration)
    (mask : CalibrationMask) : Calibration × List ℚ :=
  match cal, mask with
  | [], _ => ([], arr)
  | c :: cs, [] =>
      let r := fillCalibration arr cs []
      (c :: r.1, r.2)
  | c :: cs, m :: ms =>
      let r1 := fillScreen arr c m
      let r2 := fillCalibration r1.2 cs ms
      (r1.1 :: r2.1, r2.2)

/-- `array_to_calibration`: deep-copy the initial calibration and overwrite
its masked entries with the array's values, consumed front to back. -/
def array_to_calibration (arr : List ℚ) (mask : CalibrationMask)
    (init : Calibration) : Calibration :=
  (fillCalibration arr init mask).1

/-- `default_calibration_scaler`: rows for `screen_center`, `position`,
`euler_angles`, `pixel_size`, in that dict insertion order. -/
def default_calibration_scaler : Scaler :=
  [[1 / 10, 1 / 10], [1, 1, 1], [1 / 10, 1 / 10, 1 / 10], [1, 1]]

/-- The scale factors of the masked entries, in mask iteration order (the
`scaler[key][i]` values visited by `apply_calibration_scaler`). -/
def maskScalers (mask : CalibrationMask) (scaler : Scaler) : List ℚ :=
  (mask.map fun m =>
    (((m.zip scaler).map fun bs => maskedEntries bs.2 bs.1).flatten)).flatten

/-- `apply_calibration_scaler`: multiply the k-th array entry by the k-th
masked scale factor (entries past the masked count are untouched). -/
def apply_calibration_scaler (arr : List ℚ) (scaler : Scaler)
    (mask : CalibrationMask) : List ℚ :=
  List.zipWith (· * ·) arr (maskScalers mask scaler) ++
    arr.drop (maskScalers mask scaler).length

/-- `unapply_calibration_scaler`: divide instead of multiply. -/
def unapply_calibration_scaler (arr : List ℚ) (scaler : Scaler)
    (mask : CalibrationMask) : List ℚ :=
  List.zipWith (· / ·) arr (maskScalers mask scaler) ++
    arr.drop (maskScalers mask scaler).length

/-! ## The `fit` parameter vector (calibration.py, `fit` / `x_to_structured`) -/

/-- Ray nodes for the calibration fit, `[x1, y1, z1, x2, y2, z2]`. -/
structure RayNodes where
  x1 : ℚ
  y1 : ℚ
  z1 : ℚ
  x2 : ℚ
  y2 : ℚ
  z2 : ℚ
deriving DecidableEq

/-- `ray_nodes_initial[:, [0, 1, 3, 4]]` flattened row-major. -/
def ray_unknowns (rays : List RayNodes) : List ℚ :=
  (rays.map fun r => [r.x1, r.y1, r.x2, r.y2]).flatten

/-- `ray_node_scaling = 1e-5`. -/
def ray_node_scaling : ℚ := 1 / 100000

/-- The flat initial vector `x0` that `fit` hands to the optimizer: scaled
ray unknowns followed by the unscaled masked calibration entries. -/
def fit_x0 (rays : List RayNodes) (cal : Calibration)
    (mask : CalibrationMask) : List ℚ :=
  (ray_unknowns rays).map (· / ray_node_scaling) ++
    unapply_calibration_scaler (calibration_to_array cal mask)
      default_calibration_scaler mask

/-- Rebuild trial ray nodes from the initial nodes and the flat ray inputs
(four per ray, z coordinates kept from the initial nodes). -/
def reassemble_rays (init : List RayNodes) (inputs : List ℚ) : List RayNodes :=
  match init, inputs with
  | [], _ => []
  | r :: rs, a :: b :: c :: d :: rest =>
      ⟨a, b, r.z1, c, d, r.z2⟩ :: reassemble_rays rs rest
  | r :: rs, _ => r :: rs

/-- `x_to_structured` from `fit`: split `x`, rescale the calibration block
with `apply_calibration_scaler`, rescale the ray block, and then run the
leftover rescaling loop whose `count` is never incremented, so it multiplies
the FIRST calibration entry once per masked entry (by that entry's scale
factor), i.e. by the product of all masked scale factors. -/
def x_to_structured (raysInit : List RayNodes) (cal : Calibration)
    (mask : CalibrationMask) (x : List ℚ) : List RayNodes × Calibration :=
  let raySize := 4 * raysInit.length
  let calibrationArray := apply_calibration_scaler (x.drop raySize)
    default_calibration_scaler mask
  let rayInputs := (x.take raySize).map (· * ray_node_scaling)
  let trialRays := reassemble_rays raysInit rayInputs
  let calibrationArray2 :=
    match calibrationArray with
    | [] => []
    | a :: rest =>
        (a * (maskScalers mask default_calibration_scaler).prod) :: rest
  (trialRays, array_to_calibration calibrationArray2 mask cal)

/-! ## `Screen.__init__` pixel-size handling (screen.py, claim C8) -/

/-- The possible numeric `pixel_size` arguments: a Python scalar, a
list/tuple of scalars, a 1-d ndarray, or a 2-d ndarray (given by rows). -/
inductive PixelSizeInput where
  | scalar (x : ℚ)
  | seq (xs : List ℚ)
  | arr1 (xs : List ℚ)
  | arr2 (xss : List (List ℚ))
deriving DecidableEq

/-- What `Screen.__init__` stores in `self.pixel_size`. -/
inductive StoredPixelSize where
  | pair (a b : ℚ)
  | seq (xs : List ℚ)
  | arr1 (xs : List ℚ)
  | arr2 (xss : List (List ℚ))
  | rowPair (row : List ℚ)
deriving DecidableEq

/-- The `pixel_size` branch of `Screen.__init__`: scalars are duplicated,
a length-1 collection is duplicated, a length-2 ndarray must be 1-d, more
than 2 elements is an error; anything else (including length 0) is stored
unchanged.  No positivity check is performed. -/
def screen_pixel_size_init : PixelSizeInput → Except String StoredPixelSize
  | .scalar x => .ok (.pair x x)
  | .seq xs =>
      if xs.length = 1 then .ok (.pair xs.headI xs.headI)
      else if xs.length = 2 then .ok (.seq xs)
      else if 2 < xs.length then .error "pixel_size contains too many elements"
      else .ok (.seq xs)
  | .arr1 xs =>
      if xs.length = 1 then .ok (.pair xs.headI xs.headI)
      else if xs.length = 2 then .ok (.arr1 xs)
      else if 2 < xs.length then .error "pixel_size contains too many elements"
      else .ok (.arr1 xs)
  | .arr2 xss =>
      if xss.length = 1 then .ok (.rowPair xss.headI)
      else if xss.length = 2 then
        .error "pixel_size has invalid number of dimensions"
      else if 2 < xss.length then
        .error "pixel_size contains too many elements"
      else .ok (.arr2 xss)

/-! ### Claim C5 -/

/-- Masks of matching shape: same number of screens, fields per screen, and
entries per field. -/
def maskMatches (cal : Calibration) (mask : CalibrationMask) : Prop :=
  List.Forall₂ (fun c m =>
    List.Forall₂ (fun (v : List ℚ) (b : List Bool) => v.length = b.length) c m)
    cal mask

theorem fillField_self (vals : List ℚ) (mask : List Bool) (rest : List ℚ)
    (h : vals.length = mask.length) :
    fillField (maskedEntries vals mask ++ rest) vals mask = (vals, rest) := by
  induction vals generalizing mask rest with
  | nil => cases mask with
    | nil => simp [fillField, maskedEntries]
    | cons b bs => simp at h
  | cons v vs ih =>
    cases mask with
    | nil => simp at h
    | cons b bs =>
      have h' : vs.length = bs.length := by simpa using h
      cases b with
      | true =>
        have hm : maskedEntries (v :: vs) (true :: bs) =
            v :: maskedEntries vs bs := by
          simp [maskedEntries]
        rw [hm, List.cons_append]
        simp [fillField, ih _ rest h']
      | false =>
        have hm : maskedEntries (v :: vs) (false :: bs) =
            maskedEntries vs bs := by
          simp [maskedEntries]
        rw [hm]
        simp [fillField, ih _ rest h']

theorem fillScreen_self (fields : List (List ℚ)) (mask : List (List Bool))
    (rest : List ℚ)
    (h : List.Forall₂ (fun (v : List ℚ) (b : List Bool) => v.length = b.length)
      fields mask) :
    fillScreen
      ((((fields.zip mask).map fun vm => maskedEntries vm.1 vm.2).flatten) ++ rest)
      fields mask = (fields, rest) := by
  induction h generalizing rest with
  | nil => simp [fillScreen]
  | @cons f m fs ms hfm _ ih =>
    simp only [List.zip_cons_cons, List.map_cons, List.flatten_cons,
      List.append_assoc, fillScreen]
    rw [fillField_self f m _ hfm, ih rest]

theorem fillCalibration_self (cal : Calibration) (mask : CalibrationMask)
    (rest : List ℚ) (h : maskMatches cal mask) :
    fillCalibration (calibration_to_array cal mask ++ rest) cal mask =
      (cal, rest) := by
  induction h generalizing rest with
  | nil => simp [fillCalibration, calibration_to_array]
  | @cons c m cs ms hcm _ ih =>
    simp only [calibration_to_array, List.zip_cons_cons, List.map_cons,
      List.flatten_cons, List.append_assoc, fillCalibration] at *
    rw [fillScreen_self c m _ hcm]
    exact congrArg (fun p => (c :: p.1, p.2)) (ih rest)

/-- Claim C5: for every calibration and mask of matching shape, flattening
with `calibration_to_array` and refilling with `array_to_calibration`
(initialized from the same calibration) reproduces every entry, masked or
unmasked. -/
theorem calibration_array_roundtrip (cal : Calibration)
    (mask : CalibrationMask) (h : maskMatches cal mask) :
    array_to_calibration (calibration_to_array cal mask) mask cal = cal := by
  have := fillCalibration_self cal mask [] h
  rw [List.append_nil] at this
  rw [array_to_calibration, this]

/-- Witness for claim C5 on a two-screen calibration with a mixed mask. -/
theorem calibration_array_roundtrip_witness :
    maskMatches [[[1, 9], [0, 0, 7]], [[2, 7], [5, 6, 8]]]
      [[[true, false], [false, true, true]], [[false, false], [true, false, true]]] ∧
    array_to_calibration
      (calibration_to_array [[[1, 9], [0, 0, 7]], [[2, 7], [5, 6, 8]]]
        [[[true, false], [false, true, true]], [[false, false], [true, false, true]]])
      [[[true, false], [false, true, true]], [[false, false], [true, false, true]]]
      [[[1, 9], [0, 0, 7]], [[2, 7], [5, 6, 8]]] =
      [[[1, 9], [0, 0, 7]], [[2, 7], [5, 6, 8]]] := by
  have hm : maskMatches [[[1, 9], [0, 0, 7]], [[2, 7], [5, 6, 8]]]
      [[[true, false], [false, true, true]], [[false, false], [true, false, true]]] := by
    refine List.Forall₂.cons ?_ (List.Forall₂.cons ?_ List.Forall₂.nil) <;>
      refine List.Forall₂.cons (by decide) (List.Forall₂.cons (by decide)
        List.Forall₂.nil)
  exact ⟨hm, calibration_array_roundtrip _ _ hm⟩

/-! ### Claim C1 -/

/-- Claim C1: `fit` fails to round-trip its own initial vector.  With one
screen whose single masked field entry is `1` and carries scale factor
`1/10` (the `screen_center` row of the default scaler), unflattening the
initial vector `x0` with `x_to_structured` reproduces the initial ray nodes
but returns `1/10` instead of `1` for the masked calibration entry: the
leftover rescaling loop in `x_to_structured` never increments `count`, so
the first flat entry absorbs every masked scale factor a second time. -/
theorem x_to_structured_x0_bug :
    x_to_structured [RayNodes.mk 0 0 0 0 0 1] [[[1]]] [[[true]]]
      (fit_x0 [RayNodes.mk 0 0 0 0 0 1] [[[1]]] [[[true]]]) =
      ([RayNodes.mk 0 0 0 0 0 1], [[[1 / 10]]]) ∧
    ([[[(1 / 10 : ℚ)]]] : Calibration) ≠ [[[1]]] := by
  constructor
  · norm_num [x_to_structured, fit_x0, ray_unknowns, ray_node_scaling,
      unapply_calibration_scaler, apply_calibration_scaler,
      calibration_to_array, maskScalers, maskedEntries,
      default_calibration_scaler, reassemble_rays, array_to_calibration,
      fillCalibration, fillScreen, fillField, List.filterMap_cons,
      List.filterMap_nil, List.zipWith, List.drop, List.prod_cons,
      List.prod_nil, List.headI]
  · norm_num

/-! ### Claim C8 -/

/-- Claim C8 counterexample: `Screen.__init__` accepts the non-positive
scalar pixel size `0` and stores `(0, 0)`; no positivity check exists. -/
theorem pixel_size_zero_accepted :
    screen_pixel_size_init (.scalar 0) = .ok (.pair 0 0) ∧
    ¬(0 : ℚ) < 0 := by
  exact ⟨rfl, by norm_num⟩

/-- Claim C8 (amended): `Screen.__init__` rejects collections of more than
two elements and length-2 2-d ndarrays, resolves a scalar or a length-1
collection to two equal scalars, and stores a length-2 (or empty) collection
unchanged; it never checks the sign of the values. -/
theorem screen_pixel_size_init_spec :
    (∀ x : ℚ, screen_pixel_size_init (.scalar x) = .ok (.pair x x)) ∧
    (∀ a : ℚ, screen_pixel_size_init (.seq [a]) = .ok (.pair a a)) ∧
    (∀ a b : ℚ, screen_pixel_size_init (.seq [a, b]) = .ok (.seq [a, b])) ∧
    (∀ xs : List ℚ, 2 < xs.length → screen_pixel_size_init (.seq xs) =
      .error "pixel_size contains too many elements") ∧
    (∀ xs : List ℚ, 2 < xs.length → screen_pixel_size_init (.arr1 xs) =
      .error "pixel_size contains too many elements") ∧
    (∀ xss : List (List ℚ), xss.length = 2 →
      screen_pixel_size_init (.arr2 xss) =
        .error "pixel_size has invalid number of dimensions") ∧
    screen_pixel_size_init (.seq []) = .ok (.seq []) := by
  refine ⟨fun x => rfl, fun a => rfl, fun a b => rfl, ?_, ?_, ?_, rfl⟩
  · intro xs hlen
    simp only [screen_pixel_size_init]
    rw [if_neg (by omega), if_neg (by omega), if_pos hlen]
  · intro xs hlen
    simp only [screen_pixel_size_init]
    rw [if_neg (by omega), if_neg (by omega), if_pos hlen]
  · intro xss hlen
    simp only [screen_pixel_size_init]
    rw [if_neg (by omega), if_pos hlen]

/-- Witness for claim C8 at concrete too-long and 2-d inputs. -/
theorem screen_pixel_size_init_spec_witness :
    screen_pixel_size_init (.seq [1, 2, 3]) =
      .error "pixel_size contains too many elements" ∧
    screen_pixel_size_init (.arr1 [1, 2, 3]) =
      .error "pixel_size contains too many elements" ∧
    screen_pixel_size_init (.arr2 [[1], [2]]) =
      .error "pixel_size has invalid number of dimensions" := by
  refine ⟨?_, ?_, ?_⟩
  · exact (screen_pixel_size_init_spec.2.2.2).1 [1, 2, 3] (by norm_num)
  · exact (screen_pixel_size_init_spec.2.2.2.2).1 [1, 2, 3] (by norm_num)
  · exact (screen_pixel_size_init_spec.2.2.2.2.2).1 [[1], [2]] (by norm_num)

/-! ## `ScreenBPM` and `fit_ray` (screen_bpm.py, ray_operations.py) -/

noncomputable section

/-- A screen of either representation (Python duck typing). -/
inductive AnyScreen where
  | param (s : Screen)
  | homog (h : HomographyScreen)

/-- Dispatch `uv_to_xyz` to the underlying screen class. -/
def AnyScreen.uv_to_xyz : AnyScreen → ℝ × ℝ → ℝ × ℝ × ℝ
  | .param s, uv => Screen.uv_to_xyz s uv
  | .homog h, uv => HomographyScreen.uv_to_xyz h uv

/-- `ScreenBPM`: an ordered sequence of screens. -/
structure ScreenBPM where
  screens : List AnyScreen

/-- `numpy.max` of a nonempty list. -/
def listMax (l : List ℝ) : ℝ := l.foldl max l.headI

/-- `numpy.min` of a nonempty list. -/
def listMin (l : List ℝ) : ℝ := l.foldl min l.headI

/-- Degree-1 weighted least-squares fit of `vals` against `zs`
(`numpy.polynomial.polynomial.polyfit(z, val, 1, w)`; the weights multiply
the residuals, so the normal equations carry squared weights); returns the
coefficient pair `(c0, c1)`. -/
def polyfit1 (zs vals ws : List ℝ) : ℝ × ℝ :=
  let w2 := ws.map (fun w => w ^ 2)
  let s0 := w2.sum
  let s1 := (List.zipWith (· * ·) w2 zs).sum
  let s2 := (List.zipWith (fun w z => w * z ^ 2) w2 zs).sum
  let t0 := (List.zipWith (· * ·) w2 vals).sum
  let t1 := (List.zipWith (fun wz v => wz * v) (List.zipWith (· * ·) w2 zs)
    vals).sum
  let d := s0 * s2 - s1 ^ 2
  ((s2 * t0 - s1 * t1) / d, (s0 * t1 - s1 * t0) / d)

/-- `polyval` for a degree-1 coefficient pair. -/
def polyval1 (c : ℝ × ℝ) (z : ℝ) : ℝ := c.1 + c.2 * z

/-- The arithmetic core of `fit_ray`: fit `x(z)` and `y(z)` and span the ray
from the minimum to the maximum input z. -/
def fit_ray_core (pts : List (ℝ × ℝ × ℝ)) (ws : List ℝ) : Ray :=
  let xs := pts.map (fun p => p.1)
  let ys := pts.map (fun p => p.2.1)
  let zs := pts.map (fun p => p.2.2)
  let cx := polyfit1 zs xs ws
  let cy := polyfit1 zs ys ws
  ⟨polyval1 cx (listMin zs), polyval1 cy (listMin zs), listMin zs,
   polyval1 cx (listMax zs), polyval1 cy (listMax zs), listMax zs⟩

/-- `fit_ray`: indexing an empty coordinate array raises; with sigmas the
weights are `1/sigma * max(sigma)` and `polyfit` rejects a weight vector
whose length differs from the data. -/
def fit_ray (pts : List (ℝ × ℝ × ℝ)) (sigmas : Option (List ℝ)) :
    Except String Ray :=
  if pts.isEmpty then .error "too many indices for array"
  else
    match sigmas with
    | none => .ok (fit_ray_core pts (pts.map fun _ => 1))
    | some s =>
        if s.length ≠ pts.length then
          .error "expected x and w to have same length"
        else .ok (fit_ray_core pts (s.map fun sg => 1 / sg * listMax s))

/-- The lab coordinates of the retained (non-`None`) detections, in screen
order: the `xyz_positions` loop of `compute_beam_metrics`. -/
def retainedXyz (screens : List AnyScreen) (uvs : List (Option (ℝ × ℝ))) :
    List (ℝ × ℝ × ℝ) :=
  (screens.zip uvs).filterMap fun p => p.2.map fun uv => p.1.uv_to_xyz uv

/-- `ScreenBPM.compute_beam_metrics`: length guard, skip `None` detections,
fit the ray, and report position and angles (scalar `z_beam_position`). -/
def compute_beam_metrics (bpm : ScreenBPM) (uvs : List (Option (ℝ × ℝ)))
    (z : ℝ) (sigmas : Option (List ℝ)) :
    Except String ((ℝ × ℝ) × (ℝ × ℝ)) :=
  if uvs.length ≠ bpm.screens.length then
    .error "Number of uv_points must be equal to number of screens."
  else
    match fit_ray (retainedXyz bpm.screens uvs) sigmas with
    | .error e => .error e
    | .ok ray => .ok (compute_beam_position ray z, compute_xy_angles ray)

/-- The screens whose detections are present. -/
def retainedScreens (screens : List AnyScreen)
    (uvs : List (Option (ℝ × ℝ))) : List AnyScreen :=
  (screens.zip uvs).filterMap fun p => p.2.map fun _ => p.1

/-- The present detections, still wrapped in `some`. -/
def retainedUvs (uvs : List (Option (ℝ × ℝ))) : List (Option (ℝ × ℝ)) :=
  uvs.filterMap fun o => o.map some

end

/-! ### Claim C6 -/

theorem retained_lengths (screens : List AnyScreen)
    (uvs : List (Option (ℝ × ℝ))) (h : uvs.length = screens.length) :
    (retainedUvs uvs).length = (retainedScreens screens uvs).length := by
  induction screens generalizing uvs with
  | nil =>
    cases uvs with
    | nil => rfl
    | cons o os => simp at h
  | cons s ss ih =>
    cases uvs with
    | nil => simp at h
    | cons o os =>
      have h' : os.length = ss.length := by simpa using h
      cases o with
      | none => simpa [retainedUvs, retainedScreens] using ih os h'
      | some uv => simpa [retainedUvs, retainedScreens] using ih os h'

theorem retainedXyz_retained (screens : List AnyScreen)
    (uvs : List (Option (ℝ × ℝ))) (h : uvs.length = screens.length) :
    retainedXyz (retainedScreens screens uvs) (retainedUvs uvs) =
      retainedXyz screens uvs := by
  induction screens generalizing uvs with
  | nil =>
    cases uvs with
    | nil => rfl
    | cons o os => simp at h
  | cons s ss ih =>
    cases uvs with
    | nil => simp at h
    | cons o os =>
      have h' : os.length = ss.length := by simpa using h
      cases o with
      | none => simpa [retainedUvs, retainedScreens, retainedXyz] using ih os h'
      | some uv =>
        simpa [retainedUvs, retainedScreens, retainedXyz] using ih os h'

theorem fit_ray_error_msgs (pts : List (ℝ × ℝ × ℝ))
    (sigmas : Option (List ℝ)) (e : String)
    (h : fit_ray pts sigmas = .error e) :
    e = "too many indices for array" ∨
      e = "expected x and w to have same length" := by
  rw [fit_ray.eq_def] at h
  by_cases hp : pts.isEmpty
  · rw [if_pos hp] at h
    exact Or.inl (Except.error.inj h).symm
  · rw [if_neg hp] at h
    cases sigmas with
    | none => exact absurd h (by simp)
    | some s =>
      dsimp only at h
      by_cases hl : s.length ≠ pts.length
      · rw [if_pos hl] at h
        exact Or.inr (Except.error.inj h).symm
      · rw [if_neg hl] at h
        exact absurd h (by simp)

/-- Claim C6 counterexample: with one screen and the single detection
`None`, the lengths match, yet the call still fails (inside the ray fit on
zero points) — failure is not equivalent to a length mismatch. -/
theorem compute_beam_metrics_error_without_mismatch :
    ([none] : List (Option (ℝ × ℝ))).length =
      (ScreenBPM.mk [AnyScreen.homog (HomographyScreen.mk 0 1)]).screens.length ∧
    compute_beam_metrics (ScreenBPM.mk [AnyScreen.homog (HomographyScreen.mk 0 1)])
      [none] 0 none = .error "too many indices for array" := by
  refine ⟨rfl, ?_⟩
  simp [compute_beam_metrics, retainedXyz, fit_ray]

/-- Claim C6 (amended): `compute_beam_metrics` returns the descriptive
length error exactly when the number of uv points differs from the number of
screens; when the lengths match, each `None` entry's screen is skipped and
the result is exactly that of running the monitor on the retained screens
and detections alone (which itself fails inside the ray fit when no
detection remains). -/
theorem compute_beam_metrics_spec :
    (∀ (bpm : ScreenBPM) (uvs : List (Option (ℝ × ℝ))) (z : ℝ)
        (sigmas : Option (List ℝ)),
      compute_beam_metrics bpm uvs z sigmas =
          .error "Number of uv_points must be equal to number of screens." ↔
        uvs.length ≠ bpm.screens.length) ∧
    (∀ (bpm : ScreenBPM) (uvs : List (Option (ℝ × ℝ))) (z : ℝ)
        (sigmas : Option (List ℝ)), uvs.length = bpm.screens.length →
      compute_beam_metrics bpm uvs z sigmas =
        compute_beam_metrics (ScreenBPM.mk (retainedScreens bpm.screens uvs))
          (retainedUvs uvs) z sigmas) := by
  constructor
  · intro bpm uvs z sigmas
    constructor
    · intro he hyp
      rw [compute_beam_metrics, if_neg (not_not_intro hyp)] at he
      rcases hfit : fit_ray (retainedXyz bpm.screens uvs) sigmas with e | r
      · rw [hfit] at he
        rcases fit_ray_error_msgs _ _ _ hfit with h1 | h1 <;>
          · rw [Except.error.injEq] at he
            rw [h1] at he
            exact absurd he (by decide)
      · rw [hfit] at he
        exact absurd he (by simp)
    · intro hne
      rw [compute_beam_metrics, if_pos hne]
  · intro bpm uvs z sigmas h
    have h2 := retained_lengths bpm.screens uvs h
    have h3 := retainedXyz_retained bpm.screens uvs h
    rw [compute_beam_metrics, compute_beam_metrics,
      if_neg (not_not_intro h), if_neg (not_not_intro h2)]
    rw [show (ScreenBPM.mk (retainedScreens bpm.screens uvs)).screens =
      retainedScreens bpm.screens uvs from rfl, h3]

/-- Witness for claim C6: a two-screen monitor with the second detection
missing behaves exactly like the one-screen monitor on the retained
detection. -/
theorem compute_beam_metrics_spec_witness :
    compute_beam_metrics
        (ScreenBPM.mk [AnyScreen.homog (HomographyScreen.mk 0 1),
          AnyScreen.homog (HomographyScreen.mk 10 1)])
        [some (1, 2), none] 5 none =
      compute_beam_metrics
        (ScreenBPM.mk (retainedScreens
          [AnyScreen.homog (HomographyScreen.mk 0 1),
           AnyScreen.homog (HomographyScreen.mk 10 1)]
          [some (1, 2), none]))
        (retainedUvs [some (1, 2), none]) 5 none := by
  exact compute_beam_metrics_spec.2
    (ScreenBPM.mk [AnyScreen.homog (HomographyScreen.mk 0 1),
      AnyScreen.homog (HomographyScreen.mk 10 1)])
    [some (1, 2), none] 5 none rfl

/-! ### Claim C7 -/

/-- Claim C7 counterexample: two screens, per-screen sigmas `[1, 2]`, and
the second detection missing.  The claim predicts the fit runs with weight
`i` paired against retained point `i`; instead the unrestricted sigma vector
no longer matches the single retained point and the fit fails. -/
theorem compute_beam_metrics_sigma_counterexample :
    ([some ((0 : ℝ), (0 : ℝ)), none] : List (Option (ℝ × ℝ))).length =
      (ScreenBPM.mk [AnyScreen.homog (HomographyScreen.mk 0 1),
        AnyScreen.homog (HomographyScreen.mk 10 1)]).screens.length ∧
    compute_beam_metrics
        (ScreenBPM.mk [AnyScreen.homog (HomographyScreen.mk 0 1),
          AnyScreen.homog (HomographyScreen.mk 10 1)])
        [some (0, 0), none] 0 (some [1, 2]) =
      .error "expected x and w to have same length" := by
  refine ⟨rfl, ?_⟩
  simp [compute_beam_metrics, retainedXyz, fit_ray]

/-- Claim C7 (amended): the caller's sigma sequence reaches the ray fit
unrestricted, so when the lengths match, at least one detection is retained,
and sigmas are supplied, the call succeeds exactly when the sigma count
equals the number of retained detections (not the number of screens). -/
theorem compute_beam_metrics_sigmas_spec (bpm : ScreenBPM)
    (uvs : List (Option (ℝ × ℝ))) (z : ℝ) (sig : List ℝ)
    (hlen : uvs.length = bpm.screens.length)
    (hne : retainedXyz bpm.screens uvs ≠ []) :
    (∃ m, compute_beam_metrics bpm uvs z (some sig) = .ok m) ↔
      sig.length = (retainedXyz bpm.screens uvs).length := by
  have hie : (retainedXyz bpm.screens uvs).isEmpty = false := by
    simpa [List.isEmpty_iff] using hne
  rw [compute_beam_metrics, if_neg (not_not_intro hlen), fit_ray, hie]
  by_cases hs : sig.length = (retainedXyz bpm.screens uvs).length
  · simp [hs]
  · simp [hs]

/-- Witness for claim C7: in the counterexample configuration no metrics
are produced, because the sigma count (2) differs from the retained
detection count (1). -/
theorem compute_beam_metrics_sigmas_spec_witness :
    ¬∃ m, compute_beam_metrics
        (ScreenBPM.mk [AnyScreen.homog (HomographyScreen.mk 0 1),
          AnyScreen.homog (HomographyScreen.mk 10 1)])
        [some (0, 0), none] 0 (some [1, 2]) = .ok m := by
  intro hex
  have h := (compute_beam_metrics_sigmas_spec
    (ScreenBPM.mk [AnyScreen.homog (HomographyScreen.mk 0 1),
      AnyScreen.homog (HomographyScreen.mk 10 1)])
    [some (0, 0), none] 0 [1, 2] rfl (by simp [retainedXyz])).mp hex
  simp [retainedXyz] at h

end ScreenBPM
